import Mathlib

/-!
Verification of the mini_evm stack-based contract VM (`src/vm.py`).

The Python code is shallowly embedded: Python dicts become association
lists (preserving insertion order, as Python dicts do), the mutable
`snapshot` / `call_trace` objects shared by all frames become explicitly
threaded state, exceptions become an `Except` layer, and the recursive
interpreter gets a fuel parameter (`none` = fuel ran out, which has no
Python counterpart; every theorem is stated for runs that return `some`).

Representation choices:
* the operand stack keeps its top at the HEAD of the list (Python appends
  and pops at the end of its list, i.e. the last element is the top);
* Python distinguishes `VMExecutionError` (caught by
  `execute_transaction`) from other exceptions such as the `ValueError`
  raised by `int(...)` on a bad literal (NOT caught, so it propagates to
  the caller of `execute_transaction`); `PyError` keeps that distinction.
-/

namespace MiniEvm

/-- Association-list lookup, mirroring Python `d.get(k)` on a dict
represented as an insertion-ordered key/value list. -/
def alistGet? {β : Type} (l : List (String × β)) (k : String) : Option β :=
  match l with
  | [] => none
  | (k', v) :: rest => if k' = k then some v else alistGet? rest k

/-- Association-list update, mirroring Python `d[k] = v`: overwrite in
place if the key exists (keeping its position), else append at the end. -/
def alistSet {β : Type} (l : List (String × β)) (k : String) (v : β) :
    List (String × β) :=
  match l with
  | [] => [(k, v)]
  | (k', v') :: rest =>
      if k' = k then (k', v) :: rest else (k', v') :: alistSet rest k v

/-- Drop leading whitespace from a character list. -/
def pyTrimLeft : List Char → List Char
  | [] => []
  | c :: rest => if c.isWhitespace then pyTrimLeft rest else c :: rest

/-- Python `str.strip()` (no argument): remove leading and trailing
whitespace. (ASCII whitespace; the instruction texts in this repository
contain no exotic unicode spaces.) -/
def pyStrip (s : String) : String :=
  ⟨(pyTrimLeft (pyTrimLeft s.data).reverse).reverse⟩

/-- Python `str.upper()` (the opcodes here are ASCII). -/
def pyUpper (s : String) : String := ⟨s.data.map Char.toUpper⟩

/-- Worker for `pySplit`: walk the characters, accumulating the current
token reversed. -/
def pySplitAux : List Char → List Char → List String
  | [], cur => if cur = [] then [] else [⟨cur.reverse⟩]
  | c :: rest, cur =>
      if c.isWhitespace then
        if cur = [] then pySplitAux rest []
        else ⟨cur.reverse⟩ :: pySplitAux rest []
      else pySplitAux rest (c :: cur)

/-- Python `str.split()` (no argument): split on whitespace runs,
dropping empty pieces. -/
def pySplit (s : String) : List String := pySplitAux s.data []

/-- Decimal value of a digit list (accumulator style). -/
def digitsToNat : List Char → Nat → Nat
  | [], acc => acc
  | c :: rest, acc => digitsToNat rest (acc * 10 + (c.toNat - '0'.toNat))

/-- A nonempty all-digit character list, or `none`. -/
def pyDigits? (cs : List Char) : Option Nat :=
  if cs ≠ [] ∧ cs.all Char.isDigit then some (digitsToNat cs 0) else none

/-- Python `int(s)` (base 10): strip surrounding whitespace, optional
sign, then a nonempty digit string; `none` models the `ValueError` raised
on anything else. (Underscore digit grouping is not modelled; no operand
in this repository uses it.) -/
def pyInt? (s : String) : Option Int :=
  match (pyStrip s).data with
  | '-' :: rest => (pyDigits? rest).map fun n => -(n : Int)
  | '+' :: rest => (pyDigits? rest).map fun n => (n : Int)
  | cs => (pyDigits? cs).map fun n => (n : Int)

/-- A contract's key → integer storage (Python dict). -/
abbrev Storage := List (String × Int)

/-- `Contract` from `vm.py`: address, instruction list, storage. -/
structure Contract where
  address : String
  code : List String
  storage : Storage
deriving DecidableEq, Repr

/-- `World` from `vm.py`: the address → Contract registry. -/
structure World where
  contracts : List (String × Contract)
deriving DecidableEq, Repr

/-- `World.deploy`: fails (raises `ValueError("Address already used")`)
on a duplicate address, else registers a fresh contract with empty
storage and a copy of the code list. -/
def deploy (w : World) (address : String) (code : List String) :
    Except String World :=
  match alistGet? w.contracts address with
  | some _ => .error "Address already used"
  | none =>
      .ok ⟨w.contracts ++ [(address, ⟨address, code, []⟩)]⟩

/-- `World.get_contract`: `self.contracts.get(address)` — a pure lookup,
never creating anything. -/
def getContract (w : World) (address : String) : Option Contract :=
  alistGet? w.contracts address

/-- The transaction-scoped staged snapshot: address → storage copy. -/
abbrev Snapshot := List (String × Storage)

/-- `{addr: dict(c.storage) for addr, c in world.contracts.items()}`. -/
def mkSnapshot (w : World) : Snapshot :=
  w.contracts.map fun ac => (ac.1, ac.2.storage)

/-- Committing the snapshot back:
`for addr in snapshot: world.contracts[addr].storage = snapshot[addr]`. -/
def setContractStorage (w : World) (addr : String) (st : Storage) : World :=
  ⟨w.contracts.map fun ac =>
    if ac.1 = addr then (ac.1, { ac.2 with storage := st }) else ac⟩

/-- Commit every snapshot entry into the world, in snapshot order. -/
def commitSnapshot (w : World) (snap : Snapshot) : World :=
  snap.foldl (fun w' entry => setContractStorage w' entry.1 entry.2) w

/-- `VM.OPCOST`, the per-opcode base-cost table. -/
def OPCOST : List (String × Int) :=
  [("PUSH", 1), ("POP", 1),
   ("ADD", 3), ("SUB", 3), ("MUL", 5), ("DIV", 5),
   ("LOAD", 5), ("STORE", 20),
   ("CALL", 10), ("RETURN", 0),
   ("LOG", 1)]

/-- `self.OPCOST.get(op, 1)`: table cost, defaulting to 1. -/
def opcost (op : String) : Int := (alistGet? OPCOST op).getD 1

/-- Per-opcode usage counters (Python `defaultdict(int)`; insertion
order preserved, as in Python). -/
abbrev OpCounts := List (String × Nat)

/-- `op_counts[op] += v` on a defaultdict. -/
def bumpBy (cnt : OpCounts) (k : String) (v : Nat) : OpCounts :=
  alistSet cnt k (((alistGet? cnt k).getD 0) + v)

/-- `op_counts[op] += 1`, the increment done by `charge`. -/
def bump (cnt : OpCounts) (k : String) : OpCounts := bumpBy cnt k 1

/-- `for k, v in child.items(): parent[k] += v`. -/
def mergeCounts (parent child : OpCounts) : OpCounts :=
  child.foldl (fun acc kv => bumpBy acc kv.1 kv.2) parent

/-- A call-trace entry: a `log` event or a `call` event, with the same
fields as the dicts appended to `call_trace` in `vm.py`. -/
inductive Event where
  | log (contract : String) (value : Int)
  | call (caller callee : String) (gasProvided gasUsed ret : Int)
deriving DecidableEq, Repr

/-- The chronological shared call trace. -/
abbrev Trace := List Event

/-- A Python exception as observed at the `execute_transaction` boundary:
`vm` is `VMExecutionError` (caught there), `value` is `ValueError`
(raised by `int(...)` on a malformed literal, NOT caught there). -/
inductive PyError where
  | vm (msg : String)
  | value (msg : String)
deriving DecidableEq, Repr

/-- Outcome of one frame: either an exception (with the snapshot and
trace as mutated up to that point — Python does not roll these back when
unwinding) or `(return value, gas_used, op_counts)` plus the mutated
snapshot and trace. -/
abbrev FrameResult :=
  Except PyError (Int × Int × OpCounts) × Snapshot × Trace

/-- The outcome of dispatching one already-charged instruction in
`VM._exec_contract_frame`'s loop body, excluding the recursive part of
`CALL`: an exception, a continue to the next instruction with updated
stack/snapshot/trace, a `RETURN` halt carrying the return value, or a
fully validated call request (callee, gas amount, arg count) whose
recursion the loop itself performs. -/
inductive Step where
  | err (e : PyError)
  | next (stack : List Int) (snap : Snapshot) (tr : Trace)
  | halt (ret : Int)
  | callReq (callee : String) (gasAmount nargs : Int)
deriving DecidableEq, Repr

/-- The `elif` dispatch chain of `VM._exec_contract_frame` on one split
instruction, with `op` the uppercased first token, `parts` all tokens,
`gas1` the remaining gas after this opcode's charge. Everything here is
straight from the source; only the recursion of `CALL` (and the
`gas_used` arithmetic of `RETURN`, which needs the frame's gas limit) is
left to the loop. -/
def dispatch (contractAddr : String) (op : String) (parts : List String)
    (gas1 : Int) (stack : List Int) (snap : Snapshot) (tr : Trace) : Step :=
  if op = "PUSH" then
    if parts.length < 2 then .err (.vm "PUSH missing argument")
    else
      match pyInt? (parts.getD 1 "") with
      | none => .err (.value "invalid literal for int with base 10")
      | some val => .next (val :: stack) snap tr
  else if op = "POP" then
    match stack with
    | [] => .err (.vm "POP from empty stack")
    | _ :: rest => .next rest snap tr
  else if op = "ADD" ∨ op = "SUB" ∨ op = "MUL" ∨ op = "DIV" then
    match stack with
    | a :: b :: rest =>
      if op = "ADD" then .next ((b + a) :: rest) snap tr
      else if op = "SUB" then .next ((b - a) :: rest) snap tr
      else if op = "MUL" then .next ((b * a) :: rest) snap tr
      else -- DIV, Python floor division  b // a
        if a = 0 then .err (.vm "Division by zero")
        else .next ((Int.fdiv b a) :: rest) snap tr
    | _ => .err (.vm (op ++ " needs two operands"))
  else if op = "LOAD" ∨ op = "SLOAD" then
    if parts.length < 2 then .err (.vm "LOAD missing key")
    else
      let key := parts.getD 1 ""
      let local0 := (alistGet? snap contractAddr).getD []
      .next (((alistGet? local0 key).getD 0) :: stack) snap tr
  else if op = "STORE" ∨ op = "SSTORE" then
    if parts.length < 2 then .err (.vm "STORE missing key")
    else
      let key := parts.getD 1 ""
      match stack with
      | [] => .err (.vm "STORE needs a value on stack")
      | val :: rest =>
          let local0 := (alistGet? snap contractAddr).getD []
          .next rest (alistSet snap contractAddr (alistSet local0 key val)) tr
  else if op = "LOG" then
    match stack with
    | [] => .err (.vm "LOG empty stack")
    | val :: rest => .next rest snap (tr ++ [.log contractAddr val])
  else if op = "CALL" then
    if parts.length < 4 then .err (.vm "CALL needs addr, gas, nargs")
    else
      match pyInt? (parts.getD 2 "") with
      | none => .err (.value "invalid literal for int with base 10")
      | some gasAmount =>
        match pyInt? (parts.getD 3 "") with
        | none => .err (.value "invalid literal for int with base 10")
        | some nargs =>
          if gas1 < gasAmount then .err (.vm "Insufficient gas for CALL")
          else if (stack.length : Int) < nargs then
            .err (.vm "Not enough args for CALL")
          else .callReq (parts.getD 1 "") gasAmount nargs
  else if op = "RETURN" then .halt (stack.headD 0)
  else .err (.vm ("Unknown op " ++ op))

/-- The `while ip < len(code)` interpreter loop of
`VM._exec_contract_frame`, one constructor of fuel per iteration and per
nested call (`none` = out of fuel). `gasLimit` is the frame's budget as
passed in (used only to report `gas_used = gas_limit - gas_remaining`),
`gas` the current `gas_remaining`. Per iteration: skip blank lines,
split, uppercase, charge (meter decrement + op count + exhaustion
check), dispatch, and for a validated `CALL` request inline the
recursive `_exec_contract_frame` on the callee (contract lookup + fresh
loop sharing the snapshot and trace), with the refund / count-merge /
push / call-event bookkeeping of the source's `CALL` branch. In the
top-at-head stack representation, the `nargs` values Python pops and
reverses are exactly `stack.take nargs`, and the caller keeps
`stack.drop nargs`. -/
def execLoop (fuel : Nat) (w : World) (contractAddr : String)
    (code : List String) (ip : Nat) (gasLimit gas : Int) (stack : List Int)
    (opCounts : OpCounts) (snap : Snapshot) (tr : Trace) :
    Option FrameResult :=
  match fuel with
  | 0 => none
  | fuel + 1 =>
    if ip < code.length then
      let instr := pyStrip (code.getD ip "")
      if instr = "" then
        execLoop fuel w contractAddr code (ip + 1) gasLimit gas stack
          opCounts snap tr
      else
        let parts := pySplit instr
        let op := pyUpper (parts.headD "")
        -- charge(op): decrement the meter, count the op, check exhaustion
        let gas1 := gas - opcost op
        let opCounts1 := bump opCounts op
        if gas1 < 0 then some (.error (.vm "Out of gas"), snap, tr)
        else
          match dispatch contractAddr op parts gas1 stack snap tr with
          | .err e => some (.error e, snap, tr)
          | .next stack' snap' tr' =>
              execLoop fuel w contractAddr code (ip + 1) gasLimit gas1
                stack' opCounts1 snap' tr'
          | .halt ret => some (.ok (ret, gasLimit - gas1, opCounts1), snap, tr)
          | .callReq callee gasAmount nargs =>
              let gas2 := gas1 - gasAmount
              match getContract w callee with
              | none =>
                  some (.error (.vm ("Contract " ++ callee ++ " not found")),
                        snap, tr)
              | some calleeContract =>
                match execLoop fuel w callee calleeContract.code 0
                    gasAmount gasAmount (stack.take nargs.toNat) [] snap tr with
                | none => none
                | some (.error e, snap', tr') =>
                    -- child revert: propagate
                    some (.error e, snap', tr')
                | some (.ok (ret, childGasUsed, childOpCounts), snap', tr') =>
                    execLoop fuel w contractAddr code (ip + 1) gasLimit
                      (gas2 + (gasAmount - childGasUsed))
                      (ret :: stack.drop nargs.toNat)
                      (mergeCounts opCounts1 childOpCounts) snap'
                      (tr' ++ [.call contractAddr callee gasAmount
                                 childGasUsed ret])
    else
      -- code finished without RETURN: return top of stack (or 0)
      some (.ok (stack.headD 0, gasLimit - gas, opCounts), snap, tr)

/-- `VM._exec_contract_frame`: look the contract up (raising
`VMExecutionError` if absent) and run its interpreter loop from `ip = 0`
with `gas_remaining = gas_limit` and empty op-counts. The `caller`
argument is carried but, as in the source, never read. -/
def execFrame (fuel : Nat) (w : World) (contractAddr _caller : String)
    (gasLimit : Int) (stack : List Int) (snap : Snapshot) (tr : Trace) :
    Option FrameResult :=
  match getContract w contractAddr with
  | none =>
      some (.error (.vm ("Contract " ++ contractAddr ++ " not found")), snap, tr)
  | some contract =>
      execLoop fuel w contractAddr contract.code 0 gasLimit gasLimit stack
        [] snap tr

/-- The structured result of `VM.execute_transaction` (the wall-clock
`duration_s` field is real time and is not part of the embedding; the
Python `return` field is called `ret` here). -/
structure ExecutionResult where
  success : Bool
  ret : Option Int
  gas_used : Int
  op_counts : OpCounts
  call_trace : Trace
deriving DecidableEq, Repr

/-- `VM.execute_transaction`: build the snapshot, run the root frame with
the argument list as initial stack (Python pushes the last argument on
top, hence `args.reverse` in the top-at-head representation), commit on
success, and turn a `VMExecutionError` into a `success = false` result
with `gas_used = gas_limit`, no return value, empty op-counts and the
call trace as accumulated so far. A `ValueError` (`.error msg` in the
result) is NOT caught and escapes to the invoking collaborator; the
`World` is returned alongside to expose its final state. -/
def executeTransaction (w : World) (toAddr caller : String) (gasLimit : Int)
    (inputArgs : List Int) (fuel : Nat) :
    Option (Except String ExecutionResult × World) :=
  let snapshot := mkSnapshot w
  match execFrame fuel w toAddr caller gasLimit inputArgs.reverse snapshot [] with
  | none => none
  | some (.error (.value msg), _, _) => some (.error msg, w)
  | some (.error (.vm _), _, trace) =>
      some (.ok { success := false, ret := none, gas_used := gasLimit,
                  op_counts := [], call_trace := trace }, w)
  | some (.ok (ret, gasUsed, opCounts), snap', trace) =>
      some (.ok { success := true, ret := some ret, gas_used := gasUsed,
                  op_counts := mergeCounts [] opCounts, call_trace := trace },
            commitSnapshot w snap')

/-- Shift the reported `gas_used` of a frame outcome by `d`; errors, the
snapshot and the trace are untouched. Used to state that the loop's
reported usage is `gas_limit - final_gas_remaining` with the final
remaining counter independent of the `gasLimit` parameter. -/
def shiftFrame (d : Int) : Option FrameResult → Option FrameResult
  | none => none
  | some (.error e, snap, tr) => some (.error e, snap, tr)
  | some (.ok (r, u, c), snap, tr) => some (.ok (r, u + d, c), snap, tr)

/-- The root frame's final remaining gas counter, read off by running the
same interpreter loop with the `gasLimit` reporting parameter set to 0
(the loop reports `gas_used = gasLimit - gas_remaining` at exit, so with
`gasLimit = 0` the negated report is the final `gas_remaining`). -/
def frameFinalGas (fuel : Nat) (w : World) (addr : String) (g : Int)
    (stack : List Int) (snap : Snapshot) (tr : Trace) : Option Int :=
  match getContract w addr with
  | none => none
  | some c =>
      match execLoop fuel w addr c.code 0 0 g stack [] snap tr with
      | some (.ok (_, u, _), _, _) => some (-u)
      | _ => none

/-- Gas sanity of a recorded call event: the child's reported `gas_used`
is nonnegative, and bounded by `gas_provided` whenever that was
nonnegative. -/
def CallEventOk : Event → Prop
  | .log _ _ => True
  | .call _ _ gp gu _ => 0 ≤ gu ∧ gu ≤ max gp 0

end MiniEvm

deriving instance DecidableEq for Except

namespace MiniEvm

/-! ## Concrete worlds and results used by witnesses and counterexamples -/

/-- A deployed contract whose `PUSH` operand is not an integer literal. -/
def wPushBad : World := ⟨[("A", ⟨"A", ["PUSH x"], []⟩)]⟩

/-- A deployed contract that divides by zero (spec scenario E shape). -/
def wDivZero : World := ⟨[("D", ⟨"D", ["PUSH 1", "PUSH 0", "DIV"], []⟩)]⟩

/-- The failed result of running `wDivZero` with gas limit 50. -/
def resDivZero : ExecutionResult := ⟨false, none, 50, [], []⟩

/-- A deployed contract that records a LOG event and then fails. -/
def wLogThenFail : World := ⟨[("L", ⟨"L", ["PUSH 1", "LOG", "DIV"], []⟩)]⟩

/-- The failed result of running `wLogThenFail` with gas limit 50: note
the retained log event in the trace. -/
def resLogThenFail : ExecutionResult := ⟨false, none, 50, [], [.log "L" 1]⟩

/-- A world with no contracts at all. -/
def wEmpty : World := ⟨[]⟩

/-- A contract that `CALL`s an address that is not deployed. -/
def wCallerMissing : World := ⟨[("M", ⟨"M", ["CALL X 5 0"], []⟩)]⟩

/-- A contract that `CALL`s with a NEGATIVE gas amount into an empty
contract: the insufficient-gas check passes (remaining ≥ any negative
amount) and the callee, having no chargeable instruction, succeeds with
`gas_used = 0 > gas_provided = -5`. -/
def wNegCall : World :=
  ⟨[("A", ⟨"A", ["CALL B -5 0", "RETURN"], []⟩), ("B", ⟨"B", [], []⟩)]⟩

/-- The (successful!) result of running `wNegCall` with gas limit 20:
its call event has `gas_used = 0` exceeding `gas_provided = -5`. -/
def resNegCall : ExecutionResult :=
  ⟨true, some 0, 10, [("CALL", 1), ("RETURN", 1)], [.call "A" "B" (-5) 0 0]⟩

/-- Like `wNegCall` but the callee has a chargeable instruction, so the
negative-budget child frame fails with `OutOfGas` at its first charge. -/
def wNegCallFail : World :=
  ⟨[("A", ⟨"A", ["CALL B -5 0", "RETURN"], []⟩), ("B", ⟨"B", ["PUSH 1"], []⟩)]⟩

/-- A well-behaved nested call (spec scenario C shape): `B` pushes 2,
calls `A` with gas 30 and one argument, and returns the child's value. -/
def wCallOk : World :=
  ⟨[("A", ⟨"A", ["PUSH 5", "ADD", "RETURN"], []⟩),
    ("B", ⟨"B", ["PUSH 2", "CALL A 30 1", "RETURN"], []⟩)]⟩

/-- The successful result of running `wCallOk` to `B` with gas limit
100. -/
def resCallOk : ExecutionResult :=
  ⟨true, some 7, 15, [("PUSH", 2), ("CALL", 1), ("ADD", 1), ("RETURN", 2)],
   [.call "B" "A" 30 4 7]⟩

/-! ## Claim theorems -/

set_option maxRecDepth 100000 in
/-- C1: the spec claims a failing transaction never raises to the
invoking collaborator, in particular for a `PUSH` with a non-integer
operand. The code disagrees: `int(parts[1])` raises `ValueError`, which
`execute_transaction` does not catch (it only catches
`VMExecutionError`), so the exception escapes instead of producing a
`success = false` result. This theorem evaluates the embedded code at
the failing input, exhibiting the escaping `ValueError`. -/
theorem push_noninteger_operand_raises_valueerror :
    executeTransaction wPushBad "A" "u" 10 [] 5
      = some (.error "invalid literal for int with base 10", wPushBad) := by
  decide

/-- C2: a transaction that fails (either returning a `success = false`
result, or — outside the claim's happy path — letting a `ValueError`
escape) leaves the `World` exactly as it was: the staged snapshot is
discarded and nothing is committed. -/
theorem tx_failure_leaves_world_unchanged (w : World) (toAddr caller : String)
    (gl : Int) (args : List Int) (fuel : Nat)
    (out : Except String ExecutionResult) (w' : World)
    (h : executeTransaction w toAddr caller gl args fuel = some (out, w')) :
    (∀ msg, out = .error msg → w' = w) ∧
    (∀ res, out = .ok res → res.success = false → w' = w) := by
  simp only [executeTransaction] at h
  split at h
  · exact absurd h (by simp)
  · cases h
    exact ⟨fun msg _ => rfl, fun res _ _ => rfl⟩
  · cases h
    exact ⟨fun msg _ => rfl, fun res _ _ => rfl⟩
  · cases h
    refine ⟨fun msg hmsg => absurd hmsg (by simp), fun res hres hsf => ?_⟩
    cases hres
    simp at hsf

set_option maxRecDepth 100000 in
/-- C2 witness: the divide-by-zero transaction fails and the theorem
applies, giving back the unchanged world. -/
theorem tx_failure_leaves_world_unchanged_witness :
    executeTransaction wDivZero "D" "u" 50 [] 10 = some (.ok resDivZero, wDivZero) ∧
    ((∀ msg, (Except.ok resDivZero : Except String ExecutionResult) = .error msg →
        wDivZero = wDivZero) ∧
     (∀ res, (Except.ok resDivZero : Except String ExecutionResult) = .ok res →
        res.success = false → wDivZero = wDivZero)) :=
  ⟨by decide,
   tx_failure_leaves_world_unchanged wDivZero "D" "u" 50 [] 10
     (.ok resDivZero) wDivZero (by decide)⟩

set_option maxRecDepth 100000 in
/-- C3 counterexample: a transaction that records a log event and then
fails returns a `success = false` result whose call trace is NOT empty —
`execute_transaction` never clears the shared `call_trace` list in its
failure branch, so events recorded before the error are retained. -/
theorem failed_tx_trace_not_empty_counterexample :
    executeTransaction wLogThenFail "L" "u" 50 [] 10
      = some (.ok resLogThenFail, wLogThenFail)
    ∧ resLogThenFail.success = false
    ∧ resLogThenFail.call_trace ≠ [] := by
  decide

/-- C3 (amended): for every transaction that fails with an in-band
`VMExecutionError`, the result's `call_trace` is exactly the (possibly
non-empty) trace accumulated by the partial frame execution up to the
error — recorded events are retained, not discarded. -/
theorem tx_failure_trace_retained (w : World) (toAddr caller : String)
    (gl : Int) (args : List Int) (fuel : Nat)
    (res : ExecutionResult) (w' : World)
    (h : executeTransaction w toAddr caller gl args fuel = some (.ok res, w'))
    (hfail : res.success = false) :
    ∃ msg snap', execFrame fuel w toAddr caller gl args.reverse (mkSnapshot w) []
      = some (.error (PyError.vm msg), snap', res.call_trace) := by
  simp only [executeTransaction] at h
  split at h
  · exact absurd h (by simp)
  · exact absurd h (by simp)
  · next msg snap' tr' heq =>
    cases h
    exact ⟨msg, snap', heq⟩
  · cases h
    simp at hfail

set_option maxRecDepth 100000 in
/-- C3 witness: the log-then-fail transaction instantiates the amended
theorem. -/
theorem tx_failure_trace_retained_witness :
    executeTransaction wLogThenFail "L" "u" 50 [] 10
      = some (.ok resLogThenFail, wLogThenFail) ∧
    resLogThenFail.success = false ∧
    (∃ msg snap',
      execFrame 10 wLogThenFail "L" "u" 50 ([] : List Int).reverse
          (mkSnapshot wLogThenFail) []
        = some (.error (PyError.vm msg), snap', resLogThenFail.call_trace)) :=
  ⟨by decide, by decide,
   tx_failure_trace_retained wLogThenFail "L" "u" 50 [] 10 resLogThenFail
     wLogThenFail (by decide) (by decide)⟩

/-- C4: every transaction that fails in-band reports `success = false`,
no return value, `gas_used` equal to the full transaction gas limit
(not the partial consumption), and empty opcode counts. -/
theorem tx_failure_result_fields (w : World) (toAddr caller : String)
    (gl : Int) (args : List Int) (fuel : Nat)
    (res : ExecutionResult) (w' : World)
    (h : executeTransaction w toAddr caller gl args fuel = some (.ok res, w'))
    (hfail : res.success = false) :
    res.ret = none ∧ res.gas_used = gl ∧ res.op_counts = [] := by
  simp only [executeTransaction] at h
  split at h
  · exact absurd h (by simp)
  · exact absurd h (by simp)
  · cases h
    exact ⟨rfl, rfl, rfl⟩
  · cases h
    simp at hfail

set_option maxRecDepth 100000 in
/-- C4 witness: instantiated at the divide-by-zero transaction. -/
theorem tx_failure_result_fields_witness :
    executeTransaction wDivZero "D" "u" 50 [] 10 = some (.ok resDivZero, wDivZero) ∧
    resDivZero.success = false ∧
    (resDivZero.ret = none ∧ resDivZero.gas_used = 50 ∧ resDivZero.op_counts = []) :=
  ⟨by decide, by decide,
   tx_failure_result_fields wDivZero "D" "u" 50 [] 10 resDivZero wDivZero
     (by decide) (by decide)⟩

/-! ## Gas accounting lemmas -/

/-- A successful association-list lookup returns a stored pair. -/
theorem alistGet?_mem {β : Type} (l : List (String × β)) (k : String) (v : β)
    (h : alistGet? l k = some v) : (k, v) ∈ l := by
  induction l with
  | nil => simp [alistGet?] at h
  | cons p rest ih =>
    obtain ⟨k', v'⟩ := p
    rw [alistGet?] at h
    split at h
    · next hk => cases h; subst hk; exact List.mem_cons_self _ _
    · exact List.mem_cons_of_mem _ (ih h)

/-- Every opcode base cost is nonnegative (the table holds 0..20, the
default is 1). -/
theorem opcost_nonneg (op : String) : 0 ≤ opcost op := by
  unfold opcost
  cases h : alistGet? OPCOST op with
  | none => simp
  | some v =>
    have hv := alistGet?_mem _ _ _ h
    simp only [OPCOST, List.mem_cons, List.not_mem_nil, or_false,
      Prod.mk.injEq] at hv
    rcases hv with ⟨_, rfl⟩ | ⟨_, rfl⟩ | ⟨_, rfl⟩ | ⟨_, rfl⟩ | ⟨_, rfl⟩ |
      ⟨_, rfl⟩ | ⟨_, rfl⟩ | ⟨_, rfl⟩ | ⟨_, rfl⟩ | ⟨_, rfl⟩ | ⟨_, rfl⟩ <;>
      simp

set_option maxHeartbeats 1600000 in
/-- A dispatch that continues only ever extends the trace with `log`
events (only `LOG` touches the trace; every other continuing opcode
passes it through). -/
theorem dispatch_next_trace (a op : String) (parts : List String)
    (gas1 : Int) (st : List Int) (snap : Snapshot) (tr : Trace)
    (st' : List Int) (snap' : Snapshot) (tr' : Trace)
    (h : dispatch a op parts gas1 st snap tr = .next st' snap' tr') :
    ∀ e ∈ tr', e ∈ tr ∨ ∃ c v, e = Event.log c v := by
  unfold dispatch at h
  repeat' split at h
  all_goals cases h
  all_goals
    first
    | exact fun e he => Or.inl he
    | (intro e he
       rcases List.mem_append.mp he with h1 | h1
       exact Or.inl h1
       rw [List.mem_singleton] at h1
       subst h1
       exact Or.inr ⟨_, _, rfl⟩)

set_option maxHeartbeats 1600000 in
/-- A validated call request implies the two checks the source performed
before popping: enough remaining gas and enough stacked arguments. -/
theorem dispatch_callReq_checks (a op : String) (parts : List String)
    (gas1 : Int) (st : List Int) (snap : Snapshot) (tr : Trace)
    (callee : String) (ga n : Int)
    (h : dispatch a op parts gas1 st snap tr = .callReq callee ga n) :
    ga ≤ gas1 ∧ n ≤ (st.length : Int) := by
  unfold dispatch at h
  repeat' split at h
  all_goals cases h
  exact ⟨by omega, by omega⟩

/-- The interpreter loop's reported `gas_used` is `gasLimit` minus a
final remaining counter that does not depend on the `gasLimit` reporting
parameter: shifting `gasLimit` by `d` shifts the report by `d` and
changes nothing else. -/
theorem execLoop_shift (w : World) (d : Int) :
    ∀ (fuel : Nat) (a : String) (code : List String) (ip : Nat)
      (gl g : Int) (st : List Int) (cnt : OpCounts) (snap : Snapshot)
      (tr : Trace),
      execLoop fuel w a code ip (gl + d) g st cnt snap tr
        = shiftFrame d (execLoop fuel w a code ip gl g st cnt snap tr) := by
  intro fuel
  induction fuel with
  | zero => intro a code ip gl g st cnt snap tr; rfl
  | succ fuel ih =>
    intro a code ip gl g st cnt snap tr
    simp only [execLoop]
    repeat' first
      | rfl
      | exact ih _ _ _ _ _ _ _ _ _
      | split
      | (simp only [shiftFrame]; ring_nf)

set_option maxHeartbeats 1600000 in
/-- Meter and trace invariant of the interpreter loop: a returning run
only ever appends gas-sane call events to the trace, and a successful
run's reported `gas_used` lies between the gas already spent at entry
(`gl - g`) and `gl - min g 0`; at frame entry, where `g = gl`, this gives
`0 ≤ gas_used ≤ max gl 0`. -/
theorem execLoop_inv (w : World) :
    ∀ (fuel : Nat) (a : String) (code : List String) (ip : Nat)
      (gl g : Int) (st : List Int) (cnt : OpCounts) (snap : Snapshot)
      (tr : Trace) (out : Except PyError (Int × Int × OpCounts))
      (snap' : Snapshot) (tr' : Trace),
      execLoop fuel w a code ip gl g st cnt snap tr = some (out, snap', tr') →
      (∀ e ∈ tr, CallEventOk e) →
      (∀ e ∈ tr', CallEventOk e) ∧
      (∀ r u c, out = .ok (r, u, c) → gl - g ≤ u ∧ u ≤ gl - min g 0) := by
  intro fuel
  induction fuel with
  | zero =>
    intro a code ip gl g st cnt snap tr out snap' tr' h htr
    exact absurd h (by simp [execLoop])
  | succ fuel ih =>
    intro a code ip gl g st cnt snap tr out snap' tr' h htr
    simp only [execLoop] at h
    split at h
    · -- ip < code.length
      split at h
      · -- blank line
        exact ih _ _ _ _ _ _ _ _ _ _ _ _ h htr
      · -- real instruction
        split at h
        · -- out of gas
          cases h
          exact ⟨htr, fun r u c hc => absurd hc (by simp)⟩
        · -- charged; dispatch
          next hoog =>
          split at h
          · -- dispatch error
            cases h
            exact ⟨htr, fun r u c hc => absurd hc (by simp)⟩
          · -- dispatch continue
            next st1 sn1 t1 heq =>
            have htr1 : ∀ e ∈ t1, CallEventOk e := by
              intro e he
              rcases dispatch_next_trace _ _ _ _ _ _ _ _ _ _ heq e he with
                h1 | ⟨c, v, rfl⟩
              · exact htr e h1
              · trivial
            obtain ⟨htr2, hgas⟩ := ih _ _ _ _ _ _ _ _ _ _ _ _ h htr1
            refine ⟨htr2, fun r u c hc => ?_⟩
            have h2 := hgas r u c hc
            have h3 :=
              opcost_nonneg (pyUpper ((pySplit (pyStrip (code.getD ip ""))).headD ""))
            omega
          · -- dispatch halt (RETURN)
            cases h
            refine ⟨htr, fun r u c hc => ?_⟩
            simp only [Except.ok.injEq, Prod.mk.injEq] at hc
            obtain ⟨-, hu, -⟩ := hc
            have h3 :=
              opcost_nonneg (pyUpper ((pySplit (pyStrip (code.getD ip ""))).headD ""))
            omega
          · -- dispatch call request
            next callee ga n heq =>
            obtain ⟨hga, hn⟩ := dispatch_callReq_checks _ _ _ _ _ _ _ _ _ _ heq
            split at h
            · -- callee not deployed
              cases h
              exact ⟨htr, fun r u c hc => absurd hc (by simp)⟩
            · -- callee found: inspect the child run
              split at h
              · -- child ran out of fuel
                exact absurd h (by simp)
              · -- child raised: propagate
                next e s1 t1 hchild =>
                cases h
                exact ⟨(ih _ _ _ _ _ _ _ _ _ _ _ _ hchild htr).1,
                       fun r u c hc => absurd hc (by simp)⟩
              · -- child succeeded
                next ret cu ccnt s1 t1 hchild =>
                obtain ⟨htrc, hgasc⟩ := ih _ _ _ _ _ _ _ _ _ _ _ _ hchild htr
                have hcu := hgasc ret cu ccnt rfl
                have hevent : CallEventOk (Event.call a callee ga cu ret) :=
                  ⟨by omega, by omega⟩
                have htr1 : ∀ e ∈ t1 ++ [Event.call a callee ga cu ret],
                    CallEventOk e := by
                  intro e he
                  rcases List.mem_append.mp he with h1 | h1
                  · exact htrc e h1
                  · rw [List.mem_singleton] at h1
                    subst h1
                    exact hevent
                obtain ⟨htr2, hgas⟩ := ih _ _ _ _ _ _ _ _ _ _ _ _ h htr1
                refine ⟨htr2, fun r u c hc => ?_⟩
                have h2 := hgas r u c hc
                have h3 :=
                  opcost_nonneg (pyUpper ((pySplit (pyStrip (code.getD ip ""))).headD ""))
                omega
    · -- fell off the end of the code
      cases h
      refine ⟨htr, fun r u c hc => ?_⟩
      simp only [Except.ok.injEq, Prod.mk.injEq] at hc
      obtain ⟨-, hu, -⟩ := hc
      omega


/-- Dispatching a nonblank opcode token never yields a blank opcode:
if the stripped line is blank the loop skips it, so any branch that
reaches `dispatch` has a nonempty uppercased token. Contrapositive used
by the step lemmas: a nonempty `op` forces a nonblank stripped line. -/
theorem nonblank_of_op (s op : String)
    (hop : pyUpper ((pySplit (pyStrip s)).headD "") = op) (hne : op ≠ "") :
    pyStrip s ≠ "" := by
  intro h0
  apply hne
  rw [← hop, h0]
  rfl

/-- One non-blank, successfully-charged iteration of the interpreter
loop, expressed through `dispatch`: the loop continues, halts, errors or
performs the `CALL` block exactly as the corresponding branch dictates. -/
theorem execLoop_step (fuel : Nat) (w : World) (a : String)
    (code : List String) (ip : Nat) (gl g : Int) (st : List Int)
    (cnt : OpCounts) (snap : Snapshot) (tr : Trace)
    (parts : List String) (op : String) (gas1 : Int)
    (hip : ip < code.length)
    (hparts : pySplit (pyStrip (code.getD ip "")) = parts)
    (hop : pyUpper (parts.headD "") = op)
    (hone : op ≠ "")
    (hgas1 : g - opcost op = gas1)
    (hok : ¬ gas1 < 0) :
    execLoop (fuel + 1) w a code ip gl g st cnt snap tr =
      match dispatch a op parts gas1 st snap tr with
      | .err e => some (.error e, snap, tr)
      | .next st' sn' t' =>
          execLoop fuel w a code (ip + 1) gl gas1 st' (bump cnt op) sn' t'
      | .halt ret => some (.ok (ret, gl - gas1, bump cnt op), snap, tr)
      | .callReq callee ga n =>
          match getContract w callee with
          | none =>
              some (.error (.vm ("Contract " ++ callee ++ " not found")),
                    snap, tr)
          | some cc =>
            match execLoop fuel w callee cc.code 0 ga ga (st.take n.toNat)
                [] snap tr with
            | none => none
            | some (.error e, s', t') => some (.error e, s', t')
            | some (.ok (ret, cu, ccnt), s', t') =>
                execLoop fuel w a code (ip + 1) gl ((gas1 - ga) + (ga - cu))
                  (ret :: st.drop n.toNat) (mergeCounts (bump cnt op) ccnt)
                  s' (t' ++ [.call a callee ga cu ret]) := by
  subst hparts hop hgas1
  have hne := nonblank_of_op (code.getD ip "") _ rfl hone
  simp only [execLoop]
  rw [if_pos hip, if_neg hne, if_neg hok]

/-- Evaluating `dispatch` on a fully validated `CALL` instruction. -/
theorem dispatch_call_eval (a : String) (parts : List String) (gas1 : Int)
    (st : List Int) (snap : Snapshot) (tr : Trace) (ga n : Int)
    (hlen : ¬ parts.length < 4)
    (hga : pyInt? (parts.getD 2 "") = some ga)
    (hn : pyInt? (parts.getD 3 "") = some n)
    (hgas : ¬ gas1 < ga)
    (hargs : ¬ (st.length : Int) < n) :
    dispatch a "CALL" parts gas1 st snap tr
      = .callReq (parts.getD 1 "") ga n := by
  unfold dispatch
  rw [if_neg (by decide), if_neg (by decide), if_neg (by decide),
      if_neg (by decide), if_neg (by decide), if_neg (by decide),
      if_pos rfl, if_neg hlen, hga]
  dsimp only
  rw [hn]
  dsimp only
  rw [if_neg hgas, if_neg hargs]


set_option maxRecDepth 100000 in
/-- C5 counterexample: the claim "for every CALL executed during the
transaction, the child's gas_used is at most the gas_provided" fails
when the gas operand is negative: `wNegCall` runs successfully and its
trace records a call with `gas_provided = -5` but `gas_used = 0`, and
`0 ≤ -5` is false. -/
theorem call_event_gas_exceeds_provided_counterexample :
    executeTransaction wNegCall "A" "u" 20 [] 50
      = some (.ok resNegCall, wNegCall) ∧
    resNegCall.success = true ∧
    Event.call "A" "B" (-5) 0 0 ∈ resNegCall.call_trace ∧
    ¬ ((0 : Int) ≤ (-5 : Int)) := by
  decide

/-- C5 (amended): for every successful transaction the reported
`gas_used` equals `gas_limit` minus the root frame's final remaining gas
(read off by `frameFinalGas`), and every `call` event in the trace has a
nonnegative child `gas_used`, bounded by `gas_provided` whenever the
provided amount was nonnegative (the original claim, with no sign
condition, fails on negative `CALL` gas operands). -/
theorem tx_gas_conservation (w : World) (toAddr caller : String)
    (gl : Int) (args : List Int) (fuel : Nat)
    (res : ExecutionResult) (w' : World)
    (h : executeTransaction w toAddr caller gl args fuel = some (.ok res, w'))
    (hs : res.success = true) :
    (∃ gf, frameFinalGas fuel w toAddr gl args.reverse (mkSnapshot w) []
        = some gf ∧ res.gas_used = gl - gf) ∧
    (∀ e ∈ res.call_trace, ∀ cr ce gp gu rv,
       e = Event.call cr ce gp gu rv → 0 ≤ gu ∧ (0 ≤ gp → gu ≤ gp)) := by
  simp only [executeTransaction] at h
  split at h
  · exact absurd h (by simp)
  · exact absurd h (by simp)
  · cases h
    simp at hs
  · next ret used cnts snap1 tr1 heq =>
    cases h
    unfold execFrame at heq
    split at heq
    · exact absurd heq (by simp)
    · next cc hcc =>
      constructor
      · have hshift := execLoop_shift w (-gl) fuel toAddr cc.code 0 gl gl
          args.reverse [] (mkSnapshot w) []
        rw [heq] at hshift
        have h0 : gl + -gl = 0 := by ring
        rw [h0] at hshift
        simp only [shiftFrame] at hshift
        refine ⟨gl - used, ?_, by show used = gl - (gl - used); ring⟩
        unfold frameFinalGas
        rw [hcc]
        dsimp only
        rw [hshift]
        dsimp only
        congr 1
        ring
      · have hinv := execLoop_inv w fuel toAddr cc.code 0 gl gl args.reverse
          [] (mkSnapshot w) [] _ _ _ heq
          (by intro e he; exact absurd he (List.not_mem_nil e))
        intro e he cr ce gp gu rv hev
        subst hev
        obtain ⟨h1, h2⟩ := hinv.1 _ he
        exact ⟨h1, fun hgp => by omega⟩

set_option maxRecDepth 100000 in
/-- C5 witness: the nested-call transaction on `wCallOk` instantiates the
amended gas-conservation theorem. -/
theorem tx_gas_conservation_witness :
    executeTransaction wCallOk "B" "u" 100 [] 50
      = some (.ok resCallOk, wCallOk) ∧
    resCallOk.success = true ∧
    ((∃ gf, frameFinalGas 50 wCallOk "B" 100 ([] : List Int).reverse
        (mkSnapshot wCallOk) [] = some gf ∧ resCallOk.gas_used = 100 - gf) ∧
     (∀ e ∈ resCallOk.call_trace, ∀ cr ce gp gu rv,
        e = Event.call cr ce gp gu rv → 0 ≤ gu ∧ (0 ≤ gp → gu ≤ gp))) :=
  ⟨by decide, by decide,
   tx_gas_conservation wCallOk "B" "u" 100 [] 50 resCallOk wCallOk
     (by decide) (by decide)⟩


/-- C6: a `CALL` whose child frame succeeds continues the caller frame
with the pessimistically reserved `gas_amount` refunded by
`gas_amount - child_gas_used` (net: remaining = charged remaining minus
the child's usage), the child's per-opcode counts merged into the
caller's, the child's return value pushed onto the caller's stack, and a
call event `{caller, callee, gas_provided, gas_used, return}` appended
to the trace after the child's own events. -/
theorem call_child_success_step (fuel : Nat) (w : World) (a : String)
    (code : List String) (ip : Nat) (gl g : Int) (st : List Int)
    (cnt : OpCounts) (snap : Snapshot) (tr : Trace) (parts : List String)
    (ga n : Int) (cc : Contract) (ret cu : Int) (ccnt : OpCounts)
    (snap1 : Snapshot) (tr1 : Trace)
    (hip : ip < code.length)
    (hparts : pySplit (pyStrip (code.getD ip "")) = parts)
    (hop : pyUpper (parts.headD "") = "CALL")
    (hlen : ¬ parts.length < 4)
    (hga : pyInt? (parts.getD 2 "") = some ga)
    (hn : pyInt? (parts.getD 3 "") = some n)
    (hok : ¬ g - 10 < 0)
    (hgas : ¬ g - 10 < ga)
    (hargs : ¬ (st.length : Int) < n)
    (hcallee : getContract w (parts.getD 1 "") = some cc)
    (hchild : execLoop fuel w (parts.getD 1 "") cc.code 0 ga ga
        (st.take n.toNat) [] snap tr
        = some (.ok (ret, cu, ccnt), snap1, tr1)) :
    execLoop (fuel + 1) w a code ip gl g st cnt snap tr
      = execLoop fuel w a code (ip + 1) gl (((g - 10) - ga) + (ga - cu))
          (ret :: st.drop n.toNat) (mergeCounts (bump cnt "CALL") ccnt)
          snap1 (tr1 ++ [Event.call a (parts.getD 1 "") ga cu ret]) := by
  rw [execLoop_step fuel w a code ip gl g st cnt snap tr parts "CALL"
      (g - 10) hip hparts hop (by decide)
      (by rw [show opcost "CALL" = (10 : Int) from by decide]) hok]
  rw [dispatch_call_eval a parts (g - 10) st snap tr ga n hlen hga hn
      hgas hargs]
  dsimp only
  rw [hcallee]
  dsimp only
  rw [hchild]


set_option maxRecDepth 100000 in
set_option synthInstance.maxHeartbeats 2000000 in
set_option synthInstance.maxSize 2048 in
/-- C6 witness: the `CALL A 30 1` step inside `wCallOk`'s contract `B`,
with child result `(7, gas_used 4)`: remaining gas `99 - 10 - 4 = 85`,
counts merged, `7` pushed, call event appended. -/
theorem call_child_success_step_witness :
    execLoop 11 wCallOk "B" ["PUSH 2", "CALL A 30 1", "RETURN"] 1 100 99 [2]
        [("PUSH", 1)] (mkSnapshot wCallOk) []
      = execLoop 10 wCallOk "B" ["PUSH 2", "CALL A 30 1", "RETURN"] 2 100 85
          [7] [("PUSH", 2), ("CALL", 1), ("ADD", 1), ("RETURN", 1)]
          (mkSnapshot wCallOk) [Event.call "B" "A" 30 4 7] := by
  have hchild : execLoop 10 wCallOk "A" ["PUSH 5", "ADD", "RETURN"] 0 30 30
      (List.take (Int.toNat 1) [2]) [] (mkSnapshot wCallOk) []
      = some (.ok (7, 4, [("PUSH", 1), ("ADD", 1), ("RETURN", 1)]),
              mkSnapshot wCallOk, []) := by decide
  exact call_child_success_step 10 wCallOk "B"
    ["PUSH 2", "CALL A 30 1", "RETURN"]
    1 100 99 [2] [("PUSH", 1)] (mkSnapshot wCallOk) []
    ["CALL", "A", "30", "1"] 30 1 ⟨"A", ["PUSH 5", "ADD", "RETURN"], []⟩
    7 4 [("PUSH", 1), ("ADD", 1), ("RETURN", 1)] (mkSnapshot wCallOk) []
    (by decide) (by decide) (by decide) (by decide) (by decide) (by decide)
    (by decide) (by decide) (by decide) (by decide) hchild

/-- C7: `ADD`/`SUB`/`MUL`/`DIV` pop `a` (top of stack) then `b` and push
`b + a`, `b - a`, `b * a`, or `b` floor-divided by `a` (`Int.fdiv`,
Python `//`); with fewer than two stacked values they fail
`StackUnderflow` (`"op needs two operands"`), and `DIV` fails
`DivisionByZero` exactly when the popped `a` is 0. Costs: 3 for
`ADD`/`SUB`, 5 for `MUL`/`DIV`, charged before dispatch. -/
theorem arith_step (fuel : Nat) (w : World) (a : String)
    (code : List String) (ip : Nat) (gl g : Int) (cnt : OpCounts)
    (snap : Snapshot) (tr : Trace) (parts : List String)
    (hip : ip < code.length)
    (hparts : pySplit (pyStrip (code.getD ip "")) = parts) :
    (pyUpper (parts.headD "") = "ADD" → ¬ g - 3 < 0 → ∀ x y rest,
       execLoop (fuel + 1) w a code ip gl g (x :: y :: rest) cnt snap tr
         = execLoop fuel w a code (ip + 1) gl (g - 3) ((y + x) :: rest)
             (bump cnt "ADD") snap tr) ∧
    (pyUpper (parts.headD "") = "SUB" → ¬ g - 3 < 0 → ∀ x y rest,
       execLoop (fuel + 1) w a code ip gl g (x :: y :: rest) cnt snap tr
         = execLoop fuel w a code (ip + 1) gl (g - 3) ((y - x) :: rest)
             (bump cnt "SUB") snap tr) ∧
    (pyUpper (parts.headD "") = "MUL" → ¬ g - 5 < 0 → ∀ x y rest,
       execLoop (fuel + 1) w a code ip gl g (x :: y :: rest) cnt snap tr
         = execLoop fuel w a code (ip + 1) gl (g - 5) ((y * x) :: rest)
             (bump cnt "MUL") snap tr) ∧
    (pyUpper (parts.headD "") = "DIV" → ¬ g - 5 < 0 → ∀ x y rest, x ≠ 0 →
       execLoop (fuel + 1) w a code ip gl g (x :: y :: rest) cnt snap tr
         = execLoop fuel w a code (ip + 1) gl (g - 5)
             ((Int.fdiv y x) :: rest) (bump cnt "DIV") snap tr) ∧
    (pyUpper (parts.headD "") = "DIV" → ¬ g - 5 < 0 → ∀ y rest,
       execLoop (fuel + 1) w a code ip gl g (0 :: y :: rest) cnt snap tr
         = some (.error (.vm "Division by zero"), snap, tr)) ∧
    (∀ op, pyUpper (parts.headD "") = op → (op = "ADD" ∨ op = "SUB") →
       ∀ st : List Int, st.length < 2 → ¬ g - 3 < 0 →
       execLoop (fuel + 1) w a code ip gl g st cnt snap tr
         = some (.error (.vm (op ++ " needs two operands")), snap, tr)) ∧
    (∀ op, pyUpper (parts.headD "") = op → (op = "MUL" ∨ op = "DIV") →
       ∀ st : List Int, st.length < 2 → ¬ g - 5 < 0 →
       execLoop (fuel + 1) w a code ip gl g st cnt snap tr
         = some (.error (.vm (op ++ " needs two operands")), snap, tr)) := by
  refine ⟨?_, ?_, ?_, ?_, ?_, ?_, ?_⟩
  · intro hop hg x y rest
    rw [execLoop_step fuel w a code ip gl g (x :: y :: rest) cnt snap tr
        parts "ADD" (g - 3) hip hparts hop (by decide)
        (by rw [show opcost "ADD" = (3 : Int) from by decide]) hg]
    rfl
  · intro hop hg x y rest
    rw [execLoop_step fuel w a code ip gl g (x :: y :: rest) cnt snap tr
        parts "SUB" (g - 3) hip hparts hop (by decide)
        (by rw [show opcost "SUB" = (3 : Int) from by decide]) hg]
    rfl
  · intro hop hg x y rest
    rw [execLoop_step fuel w a code ip gl g (x :: y :: rest) cnt snap tr
        parts "MUL" (g - 5) hip hparts hop (by decide)
        (by rw [show opcost "MUL" = (5 : Int) from by decide]) hg]
    rfl
  · intro hop hg x y rest hx
    rw [execLoop_step fuel w a code ip gl g (x :: y :: rest) cnt snap tr
        parts "DIV" (g - 5) hip hparts hop (by decide)
        (by rw [show opcost "DIV" = (5 : Int) from by decide]) hg]
    have hd : dispatch a "DIV" parts (g - 5) (x :: y :: rest) snap tr
        = .next ((Int.fdiv y x) :: rest) snap tr := by
      unfold dispatch
      rw [if_neg (by decide), if_neg (by decide), if_pos (by decide)]
      dsimp only
      rw [if_neg (by decide), if_neg (by decide), if_neg (by decide),
          if_neg hx]
    rw [hd]
  · intro hop hg y rest
    rw [execLoop_step fuel w a code ip gl g (0 :: y :: rest) cnt snap tr
        parts "DIV" (g - 5) hip hparts hop (by decide)
        (by rw [show opcost "DIV" = (5 : Int) from by decide]) hg]
    rfl
  · intro op hop hor st hlen hg
    rcases hor with rfl | rfl <;>
      rcases st with _ | ⟨x, _ | ⟨y, rest⟩⟩ <;>
        first
        | (rw [execLoop_step fuel w a code ip gl g _ cnt snap tr
              parts _ (g - 3) hip hparts hop (by decide)
              (by rw [show opcost "ADD" = (3 : Int) from by decide]) hg]
           rfl)
        | (rw [execLoop_step fuel w a code ip gl g _ cnt snap tr
              parts _ (g - 3) hip hparts hop (by decide)
              (by rw [show opcost "SUB" = (3 : Int) from by decide]) hg]
           rfl)
        | (exfalso; simp only [List.length_cons] at hlen; omega)
  · intro op hop hor st hlen hg
    rcases hor with rfl | rfl <;>
      rcases st with _ | ⟨x, _ | ⟨y, rest⟩⟩ <;>
        first
        | (rw [execLoop_step fuel w a code ip gl g _ cnt snap tr
              parts _ (g - 5) hip hparts hop (by decide)
              (by rw [show opcost "MUL" = (5 : Int) from by decide]) hg]
           rfl)
        | (rw [execLoop_step fuel w a code ip gl g _ cnt snap tr
              parts _ (g - 5) hip hparts hop (by decide)
              (by rw [show opcost "DIV" = (5 : Int) from by decide]) hg]
           rfl)
        | (exfalso; simp only [List.length_cons] at hlen; omega)

set_option maxRecDepth 100000 in
/-- C7 witness: one `ADD` step on stack `[2, 3]` (top `2`): pushes
`3 + 2 = 5`, costing 3 gas. -/
theorem arith_step_witness :
    execLoop 5 wEmpty "X" ["ADD"] 0 50 50 [2, 3] [] [] []
      = execLoop 4 wEmpty "X" ["ADD"] 1 50 47 [5] [("ADD", 1)] [] [] :=
  (arith_step 4 wEmpty "X" ["ADD"] 0 50 50 [] [] [] ["ADD"] (by decide)
      (by decide)).1 (by decide) (by decide) 2 3 []


/-- A failed association-list lookup means no pair with that key is
stored. -/
theorem alistGet?_none {β : Type} (l : List (String × β)) (k : String)
    (h : alistGet? l k = none) : ∀ v, (k, v) ∉ l := by
  induction l with
  | nil => intro v hv; exact absurd hv (List.not_mem_nil _)
  | cons p rest ih =>
    obtain ⟨k', v'⟩ := p
    rw [alistGet?] at h
    split at h
    · exact absurd h (by simp)
    · next hk =>
      intro v hv
      rcases List.mem_cons.mp hv with heq | hmem
      · cases heq
        exact hk rfl
      · exact ih h v hmem

/-- C8: `get_contract` is a pure lookup: it returns a deployed contract
exactly when one is registered at the address and never creates one (in
the embedding it is a function of the `World`, which it leaves
untouched). A transaction to an undeployed address returns a failed
result with the world unchanged, and a `CALL` to an undeployed callee
fails the frame with the `ContractNotFound` error, through the same
propagation path. -/
theorem lookup_no_side_effects (w : World) (addr : String) :
    (∀ c, getContract w addr = some c → (addr, c) ∈ w.contracts) ∧
    (getContract w addr = none → ∀ c, (addr, c) ∉ w.contracts) ∧
    (∀ caller gl args fuel, getContract w addr = none →
       executeTransaction w addr caller gl args (fuel + 1)
         = some (.ok ⟨false, none, gl, [], []⟩, w)) ∧
    (∀ (fuel : Nat) (a : String) (code : List String) (ip : Nat)
       (gl g : Int) (st : List Int) (cnt : OpCounts) (snap : Snapshot)
       (tr : Trace) (parts : List String) (ga n : Int),
       ip < code.length →
       pySplit (pyStrip (code.getD ip "")) = parts →
       pyUpper (parts.headD "") = "CALL" →
       ¬ parts.length < 4 →
       pyInt? (parts.getD 2 "") = some ga →
       pyInt? (parts.getD 3 "") = some n →
       ¬ g - 10 < 0 → ¬ g - 10 < ga → ¬ (st.length : Int) < n →
       getContract w (parts.getD 1 "") = none →
       execLoop (fuel + 1) w a code ip gl g st cnt snap tr
         = some (.error (.vm ("Contract " ++ parts.getD 1 "" ++ " not found")),
                 snap, tr)) := by
  refine ⟨?_, ?_, ?_, ?_⟩
  · intro c h
    exact alistGet?_mem _ _ _ h
  · intro h c
    exact alistGet?_none _ _ h c
  · intro caller gl args fuel h
    simp only [executeTransaction, execFrame, h]
  · intro fuel a code ip gl g st cnt snap tr parts ga n hip hparts hop hlen
      hga hn hok hgas hargs hnone
    rw [execLoop_step fuel w a code ip gl g st cnt snap tr parts "CALL"
        (g - 10) hip hparts hop (by decide)
        (by rw [show opcost "CALL" = (10 : Int) from by decide]) hok]
    rw [dispatch_call_eval a parts (g - 10) st snap tr ga n hlen hga hn
        hgas hargs]
    dsimp only
    rw [hnone]

set_option maxRecDepth 100000 in
/-- C8 witness: lookup of the undeployed `X`, a transaction to an
address missing from the empty world, and a `CALL X 5 0` step against a
world without `X`. -/
theorem lookup_no_side_effects_witness :
    getContract wCallerMissing "X" = none ∧
    (∀ c, ("X", c) ∉ wCallerMissing.contracts) ∧
    executeTransaction wEmpty "Z" "u" 30 [] 50
      = some (.ok ⟨false, none, 30, [], []⟩, wEmpty) ∧
    execLoop 5 wCallerMissing "M" ["CALL X 5 0"] 0 30 30 [] []
        (mkSnapshot wCallerMissing) []
      = some (.error (.vm "Contract X not found"),
              mkSnapshot wCallerMissing, []) :=
  ⟨by decide,
   fun c => (lookup_no_side_effects wCallerMissing "X").2.1 (by decide) c,
   (lookup_no_side_effects wEmpty "Z").2.2.1 "u" 30 [] 49 (by decide),
   (lookup_no_side_effects wCallerMissing "M").2.2.2 4 "M" ["CALL X 5 0"]
     0 30 30 [] [] (mkSnapshot wCallerMissing) [] ["CALL", "X", "5", "0"]
     5 0 (by decide) (by decide) (by decide) (by decide) (by decide)
     (by decide) (by decide) (by decide) (by decide) (by decide)⟩

/-- A frame whose remaining gas is already negative can only complete if
every remaining instruction is blank (then it returns the top of stack
with `gas_used = gasLimit - gas` and no state change); the moment any
instruction must be charged, the meter check fails with `OutOfGas`, and
the snapshot and trace are left untouched either way. -/
theorem execLoop_neg_budget (w : World) :
    ∀ (fuel : Nat) (a : String) (code : List String) (ip : Nat)
      (gl g : Int) (st : List Int) (cnt : OpCounts) (snap : Snapshot)
      (tr : Trace) (out : Except PyError (Int × Int × OpCounts))
      (snap' : Snapshot) (tr' : Trace),
      g < 0 →
      execLoop fuel w a code ip gl g st cnt snap tr = some (out, snap', tr') →
      snap' = snap ∧ tr' = tr ∧
      (out = .error (.vm "Out of gas") ∨
       (out = .ok (st.headD 0, gl - g, cnt) ∧
        ∀ j, ip ≤ j → j < code.length → pyStrip (code.getD j "") = "")) := by
  intro fuel
  induction fuel with
  | zero =>
    intro a code ip gl g st cnt snap tr out snap' tr' hneg h
    exact absurd h (by simp [execLoop])
  | succ fuel ih =>
    intro a code ip gl g st cnt snap tr out snap' tr' hneg h
    simp only [execLoop] at h
    split at h
    · -- ip < code.length
      next hip =>
      split at h
      · -- blank line: recurse
        next hblank =>
        obtain ⟨hs, ht, hdisj⟩ := ih _ _ _ _ _ _ _ _ _ _ _ _ hneg h
        refine ⟨hs, ht, ?_⟩
        rcases hdisj with h1 | ⟨h1, hall⟩
        · exact Or.inl h1
        · refine Or.inr ⟨h1, fun j hj1 hj2 => ?_⟩
          rcases Nat.eq_or_lt_of_le hj1 with rfl | hj3
          · exact hblank
          · exact hall j hj3 hj2
      · -- a chargeable instruction: the charge must fail
        split at h
        · cases h
          exact ⟨rfl, rfl, Or.inl rfl⟩
        · next hno =>
          exfalso
          have hc :=
            opcost_nonneg (pyUpper ((pySplit (pyStrip (code.getD ip ""))).headD ""))
          omega
    · -- past the end of the code
      next hip =>
      cases h
      exact ⟨rfl, rfl, Or.inr ⟨rfl, fun j hj1 hj2 => absurd (by omega) hip⟩⟩

/-- C10: a `CALL` whose gas-amount operand is negative passes the
insufficient-gas check whenever the caller's post-charge gas is
nonnegative (any nonnegative remaining gas exceeds a negative amount),
so the callee frame starts on a negative budget; such a frame fails
`OutOfGas` at its first chargeable (non-blank) instruction and can only
succeed when the callee's code has no chargeable instruction at all. -/
theorem negative_call_gas (w : World) :
    (∀ (a : String) (parts : List String) (g : Int) (st : List Int)
       (snap : Snapshot) (tr : Trace) (ga n : Int),
       ¬ parts.length < 4 →
       pyInt? (parts.getD 2 "") = some ga →
       pyInt? (parts.getD 3 "") = some n →
       ga < 0 → ¬ g - 10 < 0 → ¬ (st.length : Int) < n →
       dispatch a "CALL" parts (g - 10) st snap tr
         = .callReq (parts.getD 1 "") ga n) ∧
    (∀ (fuel : Nat) (a : String) (code : List String) (ip : Nat)
       (gl g : Int) (st : List Int) (cnt : OpCounts) (snap : Snapshot)
       (tr : Trace) (out : Except PyError (Int × Int × OpCounts))
       (snap' : Snapshot) (tr' : Trace),
       g < 0 →
       execLoop fuel w a code ip gl g st cnt snap tr = some (out, snap', tr') →
       snap' = snap ∧ tr' = tr ∧
       (out = .error (.vm "Out of gas") ∨
        (out = .ok (st.headD 0, gl - g, cnt) ∧
         ∀ j, ip ≤ j → j < code.length → pyStrip (code.getD j "") = ""))) ∧
    (∀ (fuel : Nat) (a : String) (code : List String) (ip : Nat)
       (gl g : Int) (st : List Int) (cnt : OpCounts) (snap : Snapshot)
       (tr : Trace) (parts : List String) (ga n : Int) (cc : Contract)
       (outc : Except PyError (Int × Int × OpCounts)) (sc : Snapshot)
       (tc : Trace),
       ip < code.length →
       pySplit (pyStrip (code.getD ip "")) = parts →
       pyUpper (parts.headD "") = "CALL" →
       ¬ parts.length < 4 →
       pyInt? (parts.getD 2 "") = some ga →
       pyInt? (parts.getD 3 "") = some n →
       ga < 0 → ¬ g - 10 < 0 → ¬ (st.length : Int) < n →
       getContract w (parts.getD 1 "") = some cc →
       execLoop fuel w (parts.getD 1 "") cc.code 0 ga ga (st.take n.toNat)
           [] snap tr = some (outc, sc, tc) →
       (∃ j, j < cc.code.length ∧ pyStrip (cc.code.getD j "") ≠ "") →
       execLoop (fuel + 1) w a code ip gl g st cnt snap tr
         = some (.error (.vm "Out of gas"), snap, tr)) := by
  refine ⟨?_, execLoop_neg_budget w, ?_⟩
  · intro a parts g st snap tr ga n hlen hga hn hneg hok hargs
    exact dispatch_call_eval a parts (g - 10) st snap tr ga n hlen hga hn
      (by omega) hargs
  · intro fuel a code ip gl g st cnt snap tr parts ga n cc outc sc tc
      hip hparts hop hlen hga hn hneg hok hargs hcallee hchild hnonblank
    obtain ⟨hs, ht, hdisj⟩ :=
      execLoop_neg_budget w _ _ _ _ _ _ _ _ _ _ _ _ _ hneg hchild
    rcases hdisj with herr | ⟨_, hall⟩
    · rw [hs, ht, herr] at hchild
      rw [execLoop_step fuel w a code ip gl g st cnt snap tr parts "CALL"
          (g - 10) hip hparts hop (by decide)
          (by rw [show opcost "CALL" = (10 : Int) from by decide]) hok]
      rw [dispatch_call_eval a parts (g - 10) st snap tr ga n hlen hga hn
          (by omega) hargs]
      dsimp only
      rw [hcallee]
      dsimp only
      rw [hchild]
    · obtain ⟨j, hj, hnb⟩ := hnonblank
      exact absurd (hall j (Nat.zero_le j) hj) hnb


set_option maxRecDepth 100000 in
set_option synthInstance.maxHeartbeats 2000000 in
set_option synthInstance.maxSize 2048 in
/-- C10 witness: `A` calls `B` with gas amount `-5`; `B`'s first
instruction (`PUSH 1`) is chargeable on a negative budget, so the whole
step fails `OutOfGas`. -/
theorem negative_call_gas_witness :
    execLoop 5 wNegCallFail "A" ["CALL B -5 0", "RETURN"] 0 20 20 [] []
        (mkSnapshot wNegCallFail) []
      = some (.error (.vm "Out of gas"), mkSnapshot wNegCallFail, []) := by
  have hchild : execLoop 4 wNegCallFail "B" ["PUSH 1"] 0 (-5) (-5)
      (List.take (Int.toNat 0) ([] : List Int)) [] (mkSnapshot wNegCallFail)
      [] = some (.error (.vm "Out of gas"), mkSnapshot wNegCallFail, []) := by
    decide
  exact (negative_call_gas wNegCallFail).2.2 4 "A" ["CALL B -5 0", "RETURN"]
    0 20 20 [] [] (mkSnapshot wNegCallFail) [] ["CALL", "B", "-5", "0"]
    (-5) 0 ⟨"B", ["PUSH 1"], []⟩ (.error (.vm "Out of gas"))
    (mkSnapshot wNegCallFail) [] (by decide) (by decide) (by decide)
    (by decide) (by decide) (by decide) (by decide) (by decide) (by decide)
    (by decide) hchild ⟨0, by decide, by decide⟩


end MiniEvm
